import Mathlib

/-!
Shallow embedding of the SHIP trace tool (src/ship.py) and verification of
the frozen claims about it.  Byte streams are lists of naturals below 256,
machine integers are Nat / Int with explicit wrap-around, the mutable
pairing marks of find_pairs are passed as an explicit list of optional
indices, and fallible operations return Option / Except.
-/

namespace ShipTool

/-! ## Byte order and integer codecs (the struct module calls) -/

inductive ByteOrder
  | le
  | be
deriving DecidableEq

/-- Value of a little-endian byte list (first byte least significant). -/
def bytesToNatLE : List Nat → Nat
  | [] => 0
  | b :: bs => b + 256 * bytesToNatLE bs

/-- The k low-order bytes of n, least significant first. -/
def natToBytesLE : Nat → Nat → List Nat
  | 0, _ => []
  | k + 1, n => n % 256 :: natToBytesLE k (n / 256)

/-- Value of a byte list in the given byte order. -/
def bytesToNat (en : ByteOrder) (bs : List Nat) : Nat :=
  match en with
  | .le => bytesToNatLE bs
  | .be => bytesToNatLE bs.reverse

/-- Encode n on k bytes in the given byte order. -/
def natToBytes (en : ByteOrder) (k n : Nat) : List Nat :=
  match en with
  | .le => natToBytesLE k n
  | .be => (natToBytesLE k n).reverse

/-- Reinterpret an unsigned 32-bit value as a signed one (struct format i). -/
def asInt32 (n : Nat) : Int :=
  if n < 2 ^ 31 then (n : Int) else (n : Int) - 2 ^ 32

/-- The unsigned 32-bit representation of a signed value. -/
def int32ToNat (z : Int) : Nat :=
  (z % 2 ^ 32).toNat

/-- Read a k-byte unsigned field at byte offset off. -/
def readU (en : ByteOrder) (bs : List Nat) (off k : Nat) : Nat :=
  bytesToNat en ((bs.drop off).take k)

/-- Read k raw bytes at byte offset off (struct format 4s). -/
def readBytes (bs : List Nat) (off k : Nat) : List Nat :=
  (bs.drop off).take k

/-- Read a 4-byte signed field at byte offset off (struct format i). -/
def readI32 (en : ByteOrder) (bs : List Nat) (off : Nat) : Int :=
  asInt32 (readU en bs off 4)

/-! ## The decoded record (the entry dictionaries of ship.py) -/

def ITC_SEND : Nat := 0

def ITC_RECV : Nat := 1

/-- One decoded trace record, mirroring the dictionaries built by
read_binary and read_text in src/ship.py.  seconds and microseconds are
signed (struct format i); procId and connId are raw byte strings. -/
structure Entry where
  type : Nat
  source : Nat
  sender : Nat
  receiver : Nat
  seconds : Int
  microseconds : Int
  signo : Nat
  procId : List Nat
  connId : List Nat
deriving DecidableEq, Inhabited

/-! ## find_ship_header (src/ship.py lines 37-58)

The python loop is: data = f.read(4); while data != b'SHIP': data = f.read(4).
A read at position pos of a finite stream returns the next at most four
bytes and advances by the number of bytes actually read, so at end of
stream it returns the empty chunk and does not advance.  The fuel argument
counts loop iterations; none means the loop is still running after that
many iterations. -/

def shipMagic : List Nat := [0x53, 0x48, 0x49, 0x50]

/-- One f.read(4) at position pos. -/
def read4 (data : List Nat) (pos : Nat) : List Nat :=
  (data.drop pos).take 4

/-- The magic scanning loop of find_ship_header; returns the stream
position just past the magic when found within fuel iterations. -/
def find_ship_header : Nat → List Nat → Nat → Option Nat
  | 0, _, _ => none
  | fuel + 1, data, pos =>
    let chunk := read4 data pos
    if chunk = shipMagic then some (pos + 4)
    else find_ship_header fuel data (pos + chunk.length)

/-! ## read_binary (src/ship.py lines 61-87) -/

/-- Split a list into consecutive chunks; cnt counts the bytes still
missing from the current chunk, acc holds the current chunk reversed. -/
def chunksAux (n : Nat) : List Nat → List Nat → Nat → List (List Nat)
  | [], acc, _ => if acc.isEmpty then [] else [acc.reverse]
  | b :: bs, acc, cnt =>
    if cnt ≤ 1 then (b :: acc).reverse :: chunksAux n bs [] n
    else chunksAux n bs (b :: acc) (cnt - 1)

/-- Consecutive n-byte chunks of a byte list. -/
def chunksOf (n : Nat) (bs : List Nat) : List (List Nat) :=
  chunksAux n bs [] n

/-- struct.iter_unpack: requires the buffer length to be an exact multiple
of the record size and otherwise raises struct.error (modelled as none). -/
def iter_unpack (size : Nat) (dec : List Nat → Entry) (body : List Nat) :
    Option (List Entry) :=
  if body.length % size = 0 then some ((chunksOf size body).map dec) else none

/-- Decode one v1 record, struct format HxxIIIiiII (32 bytes): type:u16 at
offset 0, two pad bytes, source:u32 at 4, sender:u32 at 8, receiver:u32 at
12, seconds:i32 at 16, microseconds:i32 at 20, signo:u32 at 24 and a
reserved u32 at 28 that read_binary drops; procId and connId are empty. -/
def decodeV1Chunk (en : ByteOrder) (bs : List Nat) : Entry :=
  { type := readU en bs 0 2
    source := readU en bs 4 4
    sender := readU en bs 8 4
    receiver := readU en bs 12 4
    seconds := readI32 en bs 16
    microseconds := readI32 en bs 20
    signo := readU en bs 24 4
    procId := []
    connId := [] }

/-- Decode one v2 record, struct format iiIIIII4s4s (36 bytes):
seconds:i32 at offset 0, microseconds:i32 at 4, source:u32 at 8, type:u32
at 12, sender:u32 at 16, receiver:u32 at 20, signo:u32 at 24, procId at 28
and connId at 32, four raw bytes each. -/
def decodeV2Chunk (en : ByteOrder) (bs : List Nat) : Entry :=
  { type := readU en bs 12 4
    source := readU en bs 8 4
    sender := readU en bs 16 4
    receiver := readU en bs 20 4
    seconds := readI32 en bs 0
    microseconds := readI32 en bs 4
    signo := readU en bs 24 4
    procId := readBytes bs 28 4
    connId := readBytes bs 32 4 }

/-- The record-decoding part of read_binary applied to the bytes following
the header: iter_unpack with the per-version struct format, keeping a
record only when its seconds field is nonzero or keep_zeros is set. -/
def read_binary_body (version : Nat) (en : ByteOrder) (keep_zeros : Bool)
    (body : List Nat) : Option (List Entry) :=
  if version = 1 then
    (iter_unpack 32 (decodeV1Chunk en) body).map
      (List.filter (fun e => decide (e.seconds ≠ 0) || keep_zeros))
  else if version = 2 then
    (iter_unpack 36 (decodeV2Chunk en) body).map
      (List.filter (fun e => decide (e.seconds ≠ 0) || keep_zeros))
  else some []

/-- Serialise an entry in the v1 on-disk layout (pad and reserved bytes
written as zero), for round-trip statements about decodeV1Chunk. -/
def encodeV1 (en : ByteOrder) (e : Entry) : List Nat :=
  natToBytes en 2 e.type ++ natToBytes en 2 0 ++ natToBytes en 4 e.source ++
    natToBytes en 4 e.sender ++ natToBytes en 4 e.receiver ++
    natToBytes en 4 (int32ToNat e.seconds) ++
    natToBytes en 4 (int32ToNat e.microseconds) ++
    natToBytes en 4 e.signo ++ natToBytes en 4 0

/-- Serialise an entry in the v2 on-disk layout, for round-trip statements
about decodeV2Chunk. -/
def encodeV2 (en : ByteOrder) (e : Entry) : List Nat :=
  natToBytes en 4 (int32ToNat e.seconds) ++
    natToBytes en 4 (int32ToNat e.microseconds) ++
    natToBytes en 4 e.source ++ natToBytes en 4 e.type ++
    natToBytes en 4 e.sender ++ natToBytes en 4 e.receiver ++
    natToBytes en 4 e.signo ++ e.procId ++ e.connId

/-! ## read_text trailing-field handling (src/ship.py lines 115-132)

The hexdata token of a text line is a string of backslash escapes.  We work
on character lists.  The normal path (token of length 32) splits it in two
and decodes the backslash-x escapes; the legacy bug path splits the token
on the two-character separator backslash-x, keeps the low byte of every
hexadecimal run, re-renders those bytes as 4 plus 4 escapes and decodes
them the same way. -/

/-- Numeric value of one hexadecimal digit character (int(_, 16) on valid
digits). -/
def hexDigit (c : Char) : Nat :=
  if '0' ≤ c ∧ c ≤ '9' then c.toNat - 48
  else if 'a' ≤ c ∧ c ≤ 'f' then c.toNat - 87
  else if 'A' ≤ c ∧ c ≤ 'F' then c.toNat - 55
  else 0

/-- int(s, 16) on a run of hexadecimal digit characters. -/
def parseHexRun (cs : List Char) : Nat :=
  cs.foldl (fun acc c => 16 * acc + hexDigit c) 0

/-- str.split on the two-character separator backslash-x, scanning left to
right; acc holds the current piece reversed. -/
def splitEscAux : List Char → List Char → List (List Char)
  | [], acc => [acc.reverse]
  | '\\' :: 'x' :: rest, acc => acc.reverse :: splitEscAux rest []
  | c :: rest, acc => splitEscAux rest (c :: acc)

/-- fields[6].split on the backslash-x separator. -/
def splitEsc (cs : List Char) : List (List Char) :=
  splitEscAux cs []

/-- Lower-case hexadecimal digit character of a value below 16. -/
def toHexChar (n : Nat) : Char :=
  if n < 10 then Char.ofNat (48 + n) else Char.ofNat (87 + n)

/-- The %02x backslash escape of one byte (the "\\x%02x" % f rendering). -/
def escByte (n : Nat) : List Char :=
  ['\\', 'x', toHexChar (n / 16 % 16), toHexChar (n % 16)]

/-- Join of the byte escapes of a byte list. -/
def escString (ns : List Nat) : List Char :=
  (ns.map escByte).flatten

/-- decode(unicode-escape) followed by encode(latin1): each backslash-x
escape becomes one byte, any other character stands for its own code. -/
def unescape : List Char → List Nat
  | '\\' :: 'x' :: h1 :: h2 :: rest => (16 * hexDigit h1 + hexDigit h2) :: unescape rest
  | c :: rest => c.toNat :: unescape rest
  | [] => []

/-- The legacy bug-repair path of read_text (lines 120-126): split the
token on backslash-x, mask every run to its low byte, re-render the first
four and remaining bytes as escape strings and decode them. -/
def fix_hexdata (tok : List Char) : List Nat × List Nat :=
  let sp := splitEsc tok
  let fixed := (sp.drop 1).map (fun f => parseHexRun f % 256)
  let fixed_proc_string := escString (fixed.take 4)
  let fixed_conn_string := escString (fixed.drop 4)
  (unescape fixed_proc_string, unescape fixed_conn_string)

/-- The one-trailing-token handling of read_text (lines 115-126): a token
of exactly 32 characters is split in halves and unescaped, anything else
goes through the legacy bug repair.  Returns (procId, connId). -/
def read_text_trailing (tok : List Char) : List Nat × List Nat :=
  if tok.length = 32 then (unescape (tok.take 16), unescape (tok.drop 16))
  else fix_hexdata tok

/-- The malformed trailing token of the C8 test vector. -/
def c8tok : List Char :=
  String.toList
    "\\xffffff01\\xffffff02\\xffffff03\\xffffff04\\xffffff05\\xffffff06\\xffffff07\\xffffff08"

/-! ## Pairing (src/ship.py lines 225-254)

The python code mutates the entry dictionaries by adding a pair key that
references the matched entry.  We model the sequence of entries as an
immutable list and the pair marks as a parallel list of optional indices
into it, threaded through the computation.  Timestamps are compared as
seconds * 10^6 + microseconds, the exact value of the float comparison
seconds + microseconds/1e6 for the representable range. -/

def pair_key (e : Entry) : Nat × Nat × Nat × List Nat × List Nat :=
  (e.signo, e.sender, e.receiver, e.procId, e.connId)

/-- Timestamp of an entry in microseconds. -/
def timeOf (e : Entry) : Int :=
  e.seconds * 1000000 + e.microseconds

/-- is_pair(rx, tx): false when the receive entry already carries a pair
mark, else the send time must be strictly below the receive time. -/
def is_pair (marks : List (Option Nat)) (es : List Entry) (r t : Nat) : Bool :=
  match marks.getD r none with
  | some _ => false
  | none => decide (timeOf (es.getD t default) < timeOf (es.getD r default))

/-- Indices of the send entries, in sequence order. -/
def txIndices (es : List Entry) : List Nat :=
  (List.range es.length).filter (fun i => decide ((es.getD i default).type = ITC_SEND))

/-- Indices of the receive entries, in sequence order. -/
def rxIndices (es : List Entry) : List Nat :=
  (List.range es.length).filter (fun i => decide ((es.getD i default).type = ITC_RECV))

/-- rx_map lookup: the dictionary is keyed by the pair key of every entry
(rx_keys is built from all entries) and maps a key to the receive entries
carrying it, in sequence order; a key of no entry at all is absent and
subscripting it would raise KeyError (modelled as none). -/
def rx_map_lookup (es : List Entry) (k : Nat × Nat × Nat × List Nat × List Nat) :
    Option (List Nat) :=
  if k ∈ es.map pair_key then
    some ((rxIndices es).filter (fun i => decide (pair_key (es.getD i default) = k)))
  else none

/-- The body of the tx loop of find_pairs for one send index: look its key
up, filter the candidates through is_pair and link both directions with
the first one, when any. -/
def pair_step (es : List Entry) (marks : List (Option Nat)) (t : Nat) :
    Except Unit (List (Option Nat)) :=
  match rx_map_lookup es (pair_key (es.getD t default)) with
  | none => .error ()
  | some cands =>
    match cands.filter (fun r => is_pair marks es r t) with
    | [] => .ok marks
    | r :: _ => .ok ((marks.set t (some r)).set r (some t))

/-- find_pairs as a state transformer on the pair marks, in the KeyError
monad. -/
def find_pairsE (es : List Entry) (marks : List (Option Nat)) :
    Except Unit (List (Option Nat)) :=
  (txIndices es).foldlM (pair_step es) marks

/-- find_pairs: the updated pair marks (the error branch is unreachable,
see the totality theorem). -/
def find_pairs (es : List Entry) (marks : List (Option Nat)) : List (Option Nat) :=
  match find_pairsE es marks with
  | .ok m => m
  | .error _ => marks

/-- Fresh marks: no entry carries a pair key yet. -/
def initMarks (es : List Entry) : List (Option Nat) :=
  List.replicate es.length none

/-- The links produced by one run of find_pairs on unpaired entries. -/
def linksOf (es : List Entry) : List (Option Nat) :=
  find_pairs es (initMarks es)

/-! ## filter_ids (src/ship.py lines 448-491)

A filter string is tokenised by a regular expression into a sequence of
items, each a negation, intersection or union over a predicate (a name
regex or a numeric range compiled against the name map).  We embed the
evaluation loop over that token sequence; a matcher is the compiled
predicate of one item. -/

inductive TokenPre
  | plain
  | minus
  | tilde
deriving DecidableEq

/-- One tokenised filter item: its marker and its compiled predicate. -/
structure FilterTok where
  pre : TokenPre
  matcher : Nat → Bool

/-- One iteration of the evaluation loop on the running
(selected, unselected) state. -/
def apply_tok (idset : Finset Nat) (st : Finset Nat × Finset Nat) (t : FilterTok) :
    Finset Nat × Finset Nat :=
  match t.pre with
  | .minus =>
    (st.1 \ st.1.filter (fun s => t.matcher s),
     st.2 ∪ idset.filter (fun s => t.matcher s))
  | .tilde => (st.1.filter (fun s => t.matcher s), st.2)
  | .plain => (st.1 ∪ idset.filter (fun s => t.matcher s), st.2)

/-- filter_ids: with no token the whole universe goes through; otherwise
the selection starts from the universe, is reset to empty when the first
token is not a negation, and every token is folded over it. -/
def filter_ids (toks : List FilterTok) (idset : Finset Nat) :
    Finset Nat × Finset Nat :=
  match toks with
  | [] => (idset, ∅)
  | t :: _ =>
    let start : Finset Nat := if t.pre = .minus then idset else ∅
    toks.foldl (apply_tok idset) (start, ∅)

/-- The name map of the C1 test vector: 0x17000 resolves to FOO_CFM. -/
def c1map (s : Nat) : Option (List Char) :=
  if s = 0x17000 then some (String.toList "FOO_CFM") else none

/-- Resolved name of an id: the mapped name, else the literal unknown
marker. -/
def nameOf (m : Nat → Option (List Char)) (s : Nat) : List Char :=
  (m s).getD (String.toList "<unknown>")

/-- Compiled matcher of the name regex cfm$ under IGNORECASE: a search
succeeds exactly when the lower-cased resolved name ends in cfm. -/
def cfm_matcher (m : Nat → Option (List Char)) (s : Nat) : Bool :=
  List.isSuffixOf (String.toList "cfm") ((nameOf m s).map Char.toLower)

/-- Tokenisation of the filter string of C1: a negated name regex cfm$, an
unmarked hexadecimal range 0x17000-0x17fff and a negated single
hexadecimal value 0x17a34. -/
def c1_tokens : List FilterTok :=
  [⟨.minus, cfm_matcher c1map⟩,
   ⟨.plain, fun s => decide (0x17000 ≤ s ∧ s ≤ 0x17fff)⟩,
   ⟨.minus, fun s => decide (0x17a34 ≤ s ∧ s ≤ 0x17a34)⟩]

/-- The universe of observed ids of the C1 test vector. -/
def c1_univ : Finset Nat := {0x17000, 0x17001, 0x17a34, 0x18000}

/-! ## stream_files per-poll diff (src/ship.py lines 544-585)

One poll of one file: previous is the decoded snapshot of the last poll
(empty on the first poll), entries the current decode with zero slots
kept.  The loop emits every nonzero entry that is beyond or different from
the previous snapshot, clears the truncated flag on a zero slot and sets
the overlaps flag on a zero or unchanged slot.  After the loop the code
reports loss when nothing overlapped and a previous snapshot existed, and
initial loss when there was no previous snapshot and the truncated flag
survived. -/

/-- The index loop of stream_files: returns (emitted entries, truncated,
overlaps). -/
def stream_poll (previous : List Entry) :
    List Entry → Nat → Bool → Bool → List Entry × Bool × Bool
  | [], _, truncated, overlaps => ([], truncated, overlaps)
  | e :: rest, i, truncated, overlaps =>
    if decide (e.seconds ≠ 0) &&
        (decide (previous.length ≤ i) || decide (previous.get? i ≠ some e)) then
      let r := stream_poll previous rest (i + 1) truncated overlaps
      (e :: r.1, r.2)
    else if decide (e.seconds = 0) then
      stream_poll previous rest (i + 1) false true
    else
      stream_poll previous rest (i + 1) truncated true

/-- One poll of one file: (emitted entries, loss diagnostic, initial-loss
diagnostic). -/
def stream_files_poll (previous entries : List Entry) :
    List Entry × Bool × Bool :=
  let r := stream_poll previous entries 0 true false
  (r.1, !r.2.2 && decide (previous.length ≠ 0),
   decide (previous.length = 0) && r.2.1)

/-! ## Concrete test vectors used by the claims -/

/-- A ring slot that was never written (seconds = 0). -/
def zEntry : Entry :=
  { type := 1, source := 0, sender := 0, receiver := 0, seconds := 0,
    microseconds := 0, signo := 0, procId := [], connId := [] }

/-- A v1 entry with distinct small field values. -/
def sampleV1 : Entry :=
  { type := 3, source := 7, sender := 11, receiver := 13, seconds := 17,
    microseconds := 19, signo := 23, procId := [], connId := [] }

/-- A v2 entry with distinct field values, a negative timestamp component
and four-byte tags. -/
def sampleV2 : Entry :=
  { type := 3, source := 7, sender := 11, receiver := 13, seconds := -17,
    microseconds := 19, signo := 23, procId := [1, 2, 3, 4], connId := [5, 6, 7, 8] }

/-- A send at t = 5. -/
def send5 : Entry :=
  { type := 0, source := 0, sender := 1, receiver := 2, seconds := 5,
    microseconds := 0, signo := 7, procId := [], connId := [] }

/-- A receive at t = 5 with the same key as send5. -/
def recv5 : Entry := { send5 with type := 1 }

/-- A receive at t = 6 with the same key as send5. -/
def recv6 : Entry := { send5 with type := 1, seconds := 6 }

/-- A send at t = 0 for the idempotence counterexample. -/
def c6_send : Entry :=
  { type := 0, source := 0, sender := 1, receiver := 2, seconds := 0,
    microseconds := 0, signo := 9, procId := [], connId := [] }

/-- A receive at t = 1 with the same key as c6_send. -/
def c6_recv1 : Entry := { c6_send with type := 1, seconds := 1 }

/-- A receive at t = 2 with the same key as c6_send. -/
def c6_recv2 : Entry := { c6_send with type := 1, seconds := 2 }

/-- One send followed by two key-matching later receives. -/
def c6_es : List Entry := [c6_send, c6_recv1, c6_recv2]

/-! ## Supporting lemmas -/

lemma length_natToBytesLE (k n : Nat) : (natToBytesLE k n).length = k := by
  induction k generalizing n with
  | zero => rfl
  | succ m ih => simp [natToBytesLE, ih]

lemma length_natToBytes (en : ByteOrder) (k n : Nat) :
    (natToBytes en k n).length = k := by
  cases en <;> simp [natToBytes, length_natToBytesLE]

lemma bytesToNatLE_natToBytesLE (k n : Nat) (h : n < 256 ^ k) :
    bytesToNatLE (natToBytesLE k n) = n := by
  induction k generalizing n with
  | zero => simp [natToBytesLE, bytesToNatLE]; omega
  | succ m ih =>
    have hp : (256 : Nat) ^ (m + 1) = 256 ^ m * 256 := pow_succ 256 m
    have hdiv : n / 256 < 256 ^ m := by omega
    simp [natToBytesLE, bytesToNatLE, ih (n / 256) hdiv]
    omega

lemma bytesToNat_natToBytes (en : ByteOrder) (k n : Nat) (h : n < 256 ^ k) :
    bytesToNat en (natToBytes en k n) = n := by
  cases en <;>
    simp [bytesToNat, natToBytes, List.reverse_reverse, bytesToNatLE_natToBytesLE k n h]

lemma int32ToNat_lt (z : Int) : int32ToNat z < 256 ^ 4 := by
  unfold int32ToNat
  omega

lemma asInt32_int32ToNat (z : Int) (h1 : -2 ^ 31 ≤ z) (h2 : z < 2 ^ 31) :
    asInt32 (int32ToNat z) = z := by
  unfold asInt32 int32ToNat
  split <;> omega

lemma readU_cons_piece (en : ByteOrder) (a b : List Nat) (off k : Nat)
    (ha : a.length ≤ off) :
    readU en (a ++ b) off k = readU en b (off - a.length) k := by
  unfold readU
  rw [List.drop_append_eq_append_drop, List.drop_eq_nil_of_le ha, List.nil_append]

lemma readU_here (en : ByteOrder) (b c : List Nat) (k : Nat) (hb : b.length = k) :
    readU en (b ++ c) 0 k = bytesToNat en b := by
  unfold readU
  rw [List.drop_zero, List.take_left' hb]

lemma readBytes_cons_piece (a b : List Nat) (off k : Nat) (ha : a.length ≤ off) :
    readBytes (a ++ b) off k = readBytes b (off - a.length) k := by
  unfold readBytes
  rw [List.drop_append_eq_append_drop, List.drop_eq_nil_of_le ha, List.nil_append]

lemma readBytes_here (b c : List Nat) (k : Nat) (hb : b.length = k) :
    readBytes (b ++ c) 0 k = b := by
  unfold readBytes
  rw [List.drop_zero, List.take_left' hb]

lemma readBytes_here_last (b : List Nat) (k : Nat) (hb : b.length = k) :
    readBytes b 0 k = b := by
  unfold readBytes
  rw [List.drop_zero, ← hb, List.take_length]

/-! ## C3: header scan on a stream without the magic -/

lemma find_ship_header_stuck (fuel : Nat) :
    find_ship_header fuel [1, 2, 3, 4] 4 = none := by
  induction fuel with
  | zero => rfl
  | succ n ih => simpa [find_ship_header, read4, shipMagic] using ih

/-- Claim C3 (code_bug): on a file whose bytes are 01 02 03 04 — no SHIP
magic anywhere — the header scan of find_ship_header never reports an
invalid file: for every number of loop iterations the loop is still
running (at end of stream read(4) returns the empty chunk, which never
equals the magic, and the position no longer advances).  The claimed
termination at end-of-stream, and with it the clean InvalidHeader failure
of clear(), does not happen. -/
theorem C3_nonterminating_scan :
    ∀ fuel : Nat, find_ship_header fuel [1, 2, 3, 4] 0 = none := by
  intro fuel
  cases fuel with
  | zero => rfl
  | succ n => simpa [find_ship_header, read4, shipMagic] using find_ship_header_stuck n

/-! ## C4: truncated binary body -/

/-- Claim C4 (counterexample): a v1 body holding one complete record and
eight trailing bytes does not decode to the one complete record; the
decode is refused outright. -/
theorem C4_counterexample :
    read_binary_body 1 .le false (encodeV1 .le sampleV1 ++ List.replicate 8 0) ≠
      some [sampleV1] := by
  decide

/-- Claim C4 (amended): a body whose length is not an exact multiple of
the record size (32 bytes for v1, 36 for v2) makes read_binary fail with
struct.error — modelled as none — instead of decoding the complete
records. -/
theorem C4_amended (en : ByteOrder) (keep : Bool) (body : List Nat) :
    (body.length % 32 ≠ 0 → read_binary_body 1 en keep body = none) ∧
    (body.length % 36 ≠ 0 → read_binary_body 2 en keep body = none) := by
  constructor <;> intro h <;> simp [read_binary_body, iter_unpack, h]

/-- Witness for C4_amended at the one-byte body. -/
theorem C4_witness :
    read_binary_body 1 .le false [0] = none ∧
      read_binary_body 2 .le false [0] = none :=
  ⟨(C4_amended .le false [0]).1 (by decide), (C4_amended .le false [0]).2 (by decide)⟩

/-! ## C1: the filter test vector -/

/-- Claim C1 (counterexample): on the tokenised filter
-cfm$, 0x17000-0x17fff, -0x17a34 over the universe
{0x17000, 0x17001, 0x17a34, 0x18000} with 0x17000 named FOO_CFM, the
claimed outcome (0x17000 excluded, 0x17001 included, 0x17a34 rejected,
0x18000 excluded) is false: 0x17000 is re-added by the range union and
0x18000 survives because a leading negation starts from the full
universe. -/
theorem C1_counterexample :
    ¬(0x17000 ∉ (filter_ids c1_tokens c1_univ).1 ∧
      0x17001 ∈ (filter_ids c1_tokens c1_univ).1 ∧
      0x17a34 ∉ (filter_ids c1_tokens c1_univ).1 ∧
      0x18000 ∉ (filter_ids c1_tokens c1_univ).1) := by
  decide

/-- Claim C1 (amended): the evaluation yields the selected set
{0x17000, 0x17001, 0x18000} and the explicitly-excluded set
{0x17000, 0x17a34}: 0x17001 is included, 0x17a34 is removed and recorded
excluded, 0x17000 is removed by the name match and recorded excluded but
re-added by the unmarked range union, and 0x18000 stays selected because
the leading negation starts the evaluation from the full universe. -/
theorem C1_amended :
    (filter_ids c1_tokens c1_univ).1 = {0x17000, 0x17001, 0x18000} ∧
    (filter_ids c1_tokens c1_univ).2 = {0x17000, 0x17a34} := by
  constructor <;> decide

/-! ## C2: first-poll diagnostic of the tail monitor -/

lemma stream_poll_truncated (prev : List Entry) (l : List Entry) :
    ∀ (i : Nat) (t o : Bool),
      (stream_poll prev l i t o).2.1 =
        (t && l.all (fun e => decide (e.seconds ≠ 0))) := by
  induction l with
  | nil => intro i t o; simp [stream_poll]
  | cons e rest ih =>
    intro i t o
    by_cases hz : e.seconds = 0
    · simp [stream_poll, hz, ih]
    · by_cases hd : prev.length ≤ i ∨ ¬prev[i]? = some e
      · simp [stream_poll, hz, hd, ih]
      · simp [stream_poll, hz, hd, ih]

/-- Claim C2 (counterexample): the first poll of a file whose decoded ring
holds only unwritten slots (seconds = 0) does not emit the initial-loss
diagnostic — a zero slot clears the truncated flag that guards it. -/
theorem C2_counterexample :
    (stream_files_poll [] [zEntry, zEntry]).2.2 = false := by
  decide

/-- Claim C2 (amended): on the first poll of a file (no previous
snapshot), the initial-signals-may-be-lost diagnostic is emitted exactly
when no decoded slot has seconds = 0 — that is, when the ring was already
fully written (or decoded to nothing), so the earliest signals may already
have been overwritten; a partially written ring emits no diagnostic. -/
theorem C2_amended (entries : List Entry) :
    (stream_files_poll [] entries).2.2 =
      entries.all (fun e => decide (e.seconds ≠ 0)) := by
  unfold stream_files_poll
  simp [stream_poll_truncated]

/-! ## C8: legacy malformed-hex repair -/

/-- Claim C8 (confirmed): the malformed trailing token made of the eight
runs ffffff01 .. ffffff08 goes through the legacy repair path and decodes
to procId = 01 02 03 04 and connId = 05 06 07 08, the low byte of each
run. -/
theorem C8_repair :
    read_text_trailing c8tok = ([0x01, 0x02, 0x03, 0x04], [0x05, 0x06, 0x07, 0x08]) := by
  decide

/-! ## C5: record layouts -/

lemma decodeV1_encodeV1 (en : ByteOrder) (e : Entry)
    (hty : e.type < 2 ^ 16) (hsrc : e.source < 2 ^ 32) (hsen : e.sender < 2 ^ 32)
    (hrcv : e.receiver < 2 ^ 32) (hsig : e.signo < 2 ^ 32)
    (hs1 : -2 ^ 31 ≤ e.seconds) (hs2 : e.seconds < 2 ^ 31)
    (hm1 : -2 ^ 31 ≤ e.microseconds) (hm2 : e.microseconds < 2 ^ 31)
    (hp : e.procId = []) (hc : e.connId = []) :
    decodeV1Chunk en (encodeV1 en e) = e := by
  obtain ⟨ty, src, sen, rcv, sec, mic, sig, p, c⟩ := e
  simp only at hty hsrc hsen hrcv hsig hs1 hs2 hm1 hm2 hp hc
  subst hp hc
  have hty' : ty < 256 ^ 2 := by simpa using hty
  have hsrc' : src < 256 ^ 4 := by simpa using hsrc
  have hsen' : sen < 256 ^ 4 := by simpa using hsen
  have hrcv' : rcv < 256 ^ 4 := by simpa using hrcv
  have hsig' : sig < 256 ^ 4 := by simpa using hsig
  simp only [decodeV1Chunk, encodeV1, readI32]
  simp [readU_cons_piece, readU_here, length_natToBytes]
  refine ⟨bytesToNat_natToBytes en 2 ty hty', bytesToNat_natToBytes en 4 src hsrc',
    bytesToNat_natToBytes en 4 sen hsen', bytesToNat_natToBytes en 4 rcv hrcv',
    ?_, ?_, bytesToNat_natToBytes en 4 sig hsig'⟩
  · rw [bytesToNat_natToBytes en 4 _ (int32ToNat_lt sec)]
    exact asInt32_int32ToNat sec hs1 hs2
  · rw [bytesToNat_natToBytes en 4 _ (int32ToNat_lt mic)]
    exact asInt32_int32ToNat mic hm1 hm2

lemma decodeV2_encodeV2 (en : ByteOrder) (e : Entry)
    (hty : e.type < 2 ^ 32) (hsrc : e.source < 2 ^ 32) (hsen : e.sender < 2 ^ 32)
    (hrcv : e.receiver < 2 ^ 32) (hsig : e.signo < 2 ^ 32)
    (hs1 : -2 ^ 31 ≤ e.seconds) (hs2 : e.seconds < 2 ^ 31)
    (hm1 : -2 ^ 31 ≤ e.microseconds) (hm2 : e.microseconds < 2 ^ 31)
    (hp : e.procId.length = 4) (hc : e.connId.length = 4) :
    decodeV2Chunk en (encodeV2 en e) = e := by
  obtain ⟨ty, src, sen, rcv, sec, mic, sig, p, c⟩ := e
  simp only at hty hsrc hsen hrcv hsig hs1 hs2 hm1 hm2 hp hc
  have hty' : ty < 256 ^ 4 := by simpa using hty
  have hsrc' : src < 256 ^ 4 := by simpa using hsrc
  have hsen' : sen < 256 ^ 4 := by simpa using hsen
  have hrcv' : rcv < 256 ^ 4 := by simpa using hrcv
  have hsig' : sig < 256 ^ 4 := by simpa using hsig
  simp only [decodeV2Chunk, encodeV2, readI32]
  simp [readU_cons_piece, readU_here, readBytes_cons_piece, readBytes_here,
        readBytes_here_last, length_natToBytes, hp, hc]
  refine ⟨bytesToNat_natToBytes en 4 ty hty', bytesToNat_natToBytes en 4 src hsrc',
    bytesToNat_natToBytes en 4 sen hsen', bytesToNat_natToBytes en 4 rcv hrcv',
    ?_, ?_, bytesToNat_natToBytes en 4 sig hsig'⟩
  · rw [bytesToNat_natToBytes en 4 _ (int32ToNat_lt sec)]
    exact asInt32_int32ToNat sec hs1 hs2
  · rw [bytesToNat_natToBytes en 4 _ (int32ToNat_lt mic)]
    exact asInt32_int32ToNat mic hm1 hm2

lemma length_encodeV1 (en : ByteOrder) (e : Entry) : (encodeV1 en e).length = 32 := by
  simp [encodeV1, length_natToBytes]

lemma length_encodeV2 (en : ByteOrder) (e : Entry)
    (hp : e.procId.length = 4) (hc : e.connId.length = 4) :
    (encodeV2 en e).length = 36 := by
  simp [encodeV2, length_natToBytes, hp, hc]

/-- Claim C5 (counterexample): v1 records are not consumed as 24-byte
structures and v2 records are not consumed as 32-byte structures — a
24-byte v1 body (respectively a 32-byte v2 body) is refused as not a
multiple of the record size, while a 32-byte v1 body (respectively a
36-byte v2 body) decodes to exactly one record. -/
theorem C5_counterexample :
    read_binary_body 1 .le true (List.replicate 24 0) = none ∧
    (read_binary_body 1 .le true (List.replicate 32 0)).map List.length = some 1 ∧
    read_binary_body 2 .le true (List.replicate 32 0) = none ∧
    (read_binary_body 2 .le true (List.replicate 36 0)).map List.length = some 1 := by
  decide

/-- Claim C5 (amended): the binary decoder consumes v1 records as 32-byte
structures — type:u16, two pad bytes, source:u32, sender:u32,
receiver:u32, seconds:i32, microseconds:i32, signo:u32, reserved:u32, the
source, sender and receiver fields being unsigned — and v2 records as
36-byte structures with field order seconds:i32, microseconds:i32,
source:u32, type:u32, sender:u32, receiver:u32, signo:u32, procId:4 bytes,
connId:4 bytes.  Stated as a round trip: decoding a chunk encoded in the
respective layout recovers every field of any in-range entry, and the
encoded sizes are 32 and 36 bytes. -/
theorem C5_amended (en : ByteOrder) (e : Entry) :
    (e.type < 2 ^ 16 → e.source < 2 ^ 32 → e.sender < 2 ^ 32 → e.receiver < 2 ^ 32 →
      e.signo < 2 ^ 32 → -2 ^ 31 ≤ e.seconds → e.seconds < 2 ^ 31 →
      -2 ^ 31 ≤ e.microseconds → e.microseconds < 2 ^ 31 →
      e.procId = [] → e.connId = [] →
      decodeV1Chunk en (encodeV1 en e) = e ∧ (encodeV1 en e).length = 32) ∧
    (e.type < 2 ^ 32 → e.source < 2 ^ 32 → e.sender < 2 ^ 32 → e.receiver < 2 ^ 32 →
      e.signo < 2 ^ 32 → -2 ^ 31 ≤ e.seconds → e.seconds < 2 ^ 31 →
      -2 ^ 31 ≤ e.microseconds → e.microseconds < 2 ^ 31 →
      e.procId.length = 4 → e.connId.length = 4 →
      decodeV2Chunk en (encodeV2 en e) = e ∧ (encodeV2 en e).length = 36) := by
  constructor
  · intro h1 h2 h3 h4 h5 h6 h7 h8 h9 h10 h11
    exact ⟨decodeV1_encodeV1 en e h1 h2 h3 h4 h5 h6 h7 h8 h9 h10 h11,
      length_encodeV1 en e⟩
  · intro h1 h2 h3 h4 h5 h6 h7 h8 h9 h10 h11
    exact ⟨decodeV2_encodeV2 en e h1 h2 h3 h4 h5 h6 h7 h8 h9 h10 h11,
      length_encodeV2 en e h10 h11⟩

/-- Witness for C5_amended at the concrete sample entries. -/
theorem C5_witness :
    (decodeV1Chunk .le (encodeV1 .le sampleV1) = sampleV1 ∧
      (encodeV1 .le sampleV1).length = 32) ∧
    (decodeV2Chunk .be (encodeV2 .be sampleV2) = sampleV2 ∧
      (encodeV2 .be sampleV2).length = 36) :=
  ⟨(C5_amended .le sampleV1).1 (by decide) (by decide) (by decide) (by decide)
      (by decide) (by decide) (by decide) (by decide) (by decide) (by decide) (by decide),
    (C5_amended .be sampleV2).2 (by decide) (by decide) (by decide) (by decide)
      (by decide) (by decide) (by decide) (by decide) (by decide) (by decide) (by decide)⟩

/-! ## Pairing: supporting lemmas for C6, C7 and C9 -/

lemma getD_get? {α : Type} (l : List α) (i : Nat) (d : α) :
    l.getD i d = (l.get? i).getD d := by
  simp [List.getD_eq_getElem?_getD, List.get?_eq_getElem?]

lemma txIndices_lt (es : List Entry) (t : Nat) (h : t ∈ txIndices es) :
    t < es.length := by
  unfold txIndices at h
  rw [List.mem_filter] at h
  exact List.mem_range.mp h.1

lemma tx_ne_rx (es : List Entry) (t r : Nat) (ht : t ∈ txIndices es)
    (hr : r ∈ rxIndices es) : t ≠ r := by
  intro he
  subst he
  unfold txIndices at ht
  unfold rxIndices at hr
  rw [List.mem_filter] at ht hr
  have h1 := of_decide_eq_true ht.2
  have h2 := of_decide_eq_true hr.2
  rw [h1] at h2
  exact absurd h2 (by decide)

lemma pair_step_ok (es : List Entry) (marks : List (Option Nat)) (t : Nat)
    (ht : t < es.length) : ∃ m, pair_step es marks t = Except.ok m := by
  have hmem : pair_key (es.getD t default) ∈ es.map pair_key := by
    refine List.mem_map_of_mem _ ?_
    rw [List.getD_eq_getElem es default ht]
    exact List.getElem_mem ht
  have hlk : rx_map_lookup es (pair_key (es.getD t default)) =
      some ((rxIndices es).filter fun i =>
        decide (pair_key (es.getD i default) = pair_key (es.getD t default))) := by
    unfold rx_map_lookup
    rw [if_pos hmem]
  unfold pair_step
  simp only [hlk]
  cases hf : ((rxIndices es).filter fun i =>
      decide (pair_key (es.getD i default) = pair_key (es.getD t default))).filter
      (fun r => is_pair marks es r t) with
  | nil => exact ⟨marks, by simp only [hf]⟩
  | cons r0 rest =>
    exact ⟨(marks.set t (some r0)).set r0 (some t), by simp only [hf]⟩

lemma foldlM_pair_ok (es : List Entry) : ∀ (ts : List Nat) (marks : List (Option Nat)),
    (∀ t ∈ ts, t < es.length) → ∃ m, ts.foldlM (pair_step es) marks = Except.ok m := by
  intro ts
  induction ts with
  | nil => intro marks _; exact ⟨marks, rfl⟩
  | cons t ts ih =>
    intro marks hts
    obtain ⟨mid, hmid⟩ := pair_step_ok es marks t (hts t (List.mem_cons_self t ts))
    obtain ⟨fin, hfin⟩ := ih mid (fun x hx => hts x (List.mem_cons_of_mem t hx))
    refine ⟨fin, ?_⟩
    rw [List.foldlM_cons, hmid]
    exact hfin

lemma find_pairsE_total (es : List Entry) (marks : List (Option Nat)) :
    ∃ m, find_pairsE es marks = Except.ok m :=
  foldlM_pair_ok es (txIndices es) marks (fun t ht => txIndices_lt es t ht)

lemma pair_step_cases (es : List Entry) (marks marks' : List (Option Nat)) (t0 : Nat)
    (h : pair_step es marks t0 = Except.ok marks') :
    marks' = marks ∨ ∃ r0, r0 ∈ rxIndices es ∧
      pair_key (es.getD r0 default) = pair_key (es.getD t0 default) ∧
      marks.getD r0 none = none ∧
      timeOf (es.getD t0 default) < timeOf (es.getD r0 default) ∧
      marks' = (marks.set t0 (some r0)).set r0 (some t0) := by
  unfold pair_step at h
  rcases hlk : rx_map_lookup es (pair_key (es.getD t0 default)) with _ | cands
  · simp only [hlk] at h
    exact (Except.noConfusion h)
  · simp only [hlk] at h
    rcases hf : cands.filter (fun r => is_pair marks es r t0) with _ | ⟨r0, rest⟩
    · simp only [hf, Except.ok.injEq] at h
      exact Or.inl h.symm
    · have hr0 : r0 ∈ cands.filter (fun r => is_pair marks es r t0) := by
        rw [hf]
        exact List.mem_cons_self r0 rest
      rw [List.mem_filter] at hr0
      have hcands : cands = (rxIndices es).filter fun i =>
          decide (pair_key (es.getD i default) = pair_key (es.getD t0 default)) := by
        unfold rx_map_lookup at hlk
        split at hlk
        · exact (Option.some.inj hlk).symm
        · cases hlk
      have hr0rx := hcands ▸ hr0.1
      rw [List.mem_filter] at hr0rx
      have hpair := hr0.2
      unfold is_pair at hpair
      cases hm : marks.getD r0 none with
      | some v =>
        simp only [hm] at hpair
        exact (Bool.noConfusion hpair)
      | none =>
        simp only [hm] at hpair
        simp only [hf, Except.ok.injEq] at h
        exact Or.inr ⟨r0, hr0rx.1, of_decide_eq_true hr0rx.2, hm,
          of_decide_eq_true hpair, h.symm⟩

lemma foldlM_pair_inv (es : List Entry) (P : List (Option Nat) → Prop)
    (hstep : ∀ marks marks' t, t ∈ txIndices es →
      pair_step es marks t = Except.ok marks' → P marks → P marks') :
    ∀ (ts : List Nat) (marks final : List (Option Nat)),
      (∀ t ∈ ts, t ∈ txIndices es) →
      ts.foldlM (pair_step es) marks = Except.ok final → P marks → P final := by
  intro ts
  induction ts with
  | nil =>
    intro marks final _ h hP
    have h' : (Except.ok marks : Except Unit (List (Option Nat))) = Except.ok final := h
    rw [← Except.ok.inj h']
    exact hP
  | cons t ts ih =>
    intro marks final hts h hP
    rw [List.foldlM_cons] at h
    rcases hst : pair_step es marks t with _ | mid
    · rw [hst] at h
      have h' : (Except.error () : Except Unit (List (Option Nat))) = Except.ok final := h
      exact (Except.noConfusion h')
    · rw [hst] at h
      have h' : ts.foldlM (pair_step es) mid = Except.ok final := h
      exact ih mid final (fun x hx => hts x (List.mem_cons_of_mem t hx)) h'
        (hstep marks mid t (hts t (List.mem_cons_self t ts)) hst hP)

lemma replicate_get?_none (n i : Nat) :
    ((List.replicate n (none : Option Nat)).get? i = some none ∧ i < n) ∨
      ((List.replicate n (none : Option Nat)).get? i = none ∧ n ≤ i) := by
  by_cases h : i < n
  · left
    refine ⟨?_, h⟩
    simp [List.get?_eq_getElem?, List.getElem?_replicate, h]
  · right
    refine ⟨?_, by omega⟩
    simp [List.get?_eq_getElem?, List.getElem?_replicate]
    omega

/-! ## C6: idempotence of find_pairs -/

/-- Claim C6 (counterexample): on a send followed by two key-matching
later receives, running find_pairs a second time on the already-paired
marks changes the links — the send is re-linked to the second, still
unclaimed receive — so pairing is not idempotent. -/
theorem C6_counterexample :
    find_pairs c6_es (find_pairs c6_es (initMarks c6_es)) ≠
      find_pairs c6_es (initMarks c6_es) := by
  decide

/-- Claim C6 (amended): pairing is deterministic — a pure function of the
entry sequence and incoming marks — but not idempotent: a second run can
re-link a send to a previously unclaimed receive.  What does hold is that
a second run never changes the link of an already-paired receive: any
receive index carrying a mark keeps exactly that mark through any further
run of find_pairs. -/
theorem C6_amended (es : List Entry) (marks final : List (Option Nat)) (r v : Nat)
    (hok : find_pairsE es marks = Except.ok final) (hr : r ∈ rxIndices es)
    (hv : marks.get? r = some (some v)) : final.get? r = some (some v) := by
  refine foldlM_pair_inv es (fun m => m.get? r = some (some v)) ?_ (txIndices es)
    marks final (fun x hx => hx) hok hv
  intro marks1 marks2 t0 ht0 hstep hP
  rcases pair_step_cases es marks1 marks2 t0 hstep with heq | ⟨r0, hr0rx, hkey, hnone, htime, heqm⟩
  · rwa [heq]
  · subst heqm
    have htr : t0 ≠ r := tx_ne_rx es t0 r ht0 hr
    have hrr : r0 ≠ r := by
      intro he
      subst he
      rw [getD_get?, hP] at hnone
      cases hnone
    rw [List.get?_set_ne _ _ hrr, List.get?_set_ne _ _ htr]
    exact hP

/-- Witness for C6_amended on the concrete second run: the receive at
index 1, paired by the first run, keeps its link. -/
theorem C6_witness :
    (find_pairs c6_es [some 1, some 0, none]).get? 1 = some (some 0) := by
  obtain ⟨m, hm⟩ := find_pairsE_total c6_es [some 1, some 0, none]
  have hfp : find_pairs c6_es [some 1, some 0, none] = m := by
    unfold find_pairs
    rw [hm]
  have hdec : find_pairs c6_es [some 1, some 0, none] = [some 2, some 0, some 0] := by
    decide
  have hmeq : m = [some 2, some 0, some 0] := by rw [← hfp, hdec]
  subst hmeq
  rw [hfp]
  exact C6_amended c6_es [some 1, some 0, none] [some 2, some 0, some 0] 1 0 hm
    (by decide) (by decide)

/-! ## C7: linking needs equal keys and strictly increasing time -/

/-- Claim C7 (confirmed): a send is linked to a receive only when their
(signo, sender, receiver, procId, connId) keys are equal and the send
timestamp is strictly below the receive timestamp; in particular a send at
t = 5 and a receive at t = 5 with identical keys are not paired, while a
send at t = 5 and a receive at t = 6 with identical keys are paired. -/
theorem C7_strict_time :
    (∀ (es : List Entry) (t r : Nat), t ∈ txIndices es →
        (linksOf es).get? t = some (some r) →
        pair_key (es.getD t default) = pair_key (es.getD r default) ∧
        timeOf (es.getD t default) < timeOf (es.getD r default)) ∧
    linksOf [send5, recv5] = [none, none] ∧
    linksOf [send5, recv6] = [some 1, some 0] := by
  refine ⟨?_, by decide, by decide⟩
  intro es t r ht hget
  obtain ⟨final, hfin⟩ := find_pairsE_total es (initMarks es)
  have hl : linksOf es = final := by
    unfold linksOf find_pairs
    rw [hfin]
  rw [hl] at hget
  suffices hP : final.length = es.length ∧
      ∀ t r, t ∈ txIndices es → final.get? t = some (some r) →
        pair_key (es.getD t default) = pair_key (es.getD r default) ∧
        timeOf (es.getD t default) < timeOf (es.getD r default) by
    exact hP.2 t r ht hget
  refine foldlM_pair_inv es (fun m => m.length = es.length ∧
      ∀ t r, t ∈ txIndices es → m.get? t = some (some r) →
        pair_key (es.getD t default) = pair_key (es.getD r default) ∧
        timeOf (es.getD t default) < timeOf (es.getD r default)) ?_ (txIndices es)
    (initMarks es) final (fun x hx => hx) hfin ?_
  · intro marks1 marks2 t0 ht0 hstep hP
    rcases pair_step_cases es marks1 marks2 t0 hstep with heq | ⟨r0, hr0rx, hkey, hnone, htime, heqm⟩
    · rwa [heq]
    · subst heqm
      refine ⟨by simp [List.length_set, hP.1], ?_⟩
      intro t1 r1 ht1 hg
      have htr : t1 ≠ r0 := tx_ne_rx es t1 r0 ht1 hr0rx
      rw [List.get?_set_ne _ _ (Ne.symm htr)] at hg
      by_cases htt : t1 = t0
      · subst htt
        have hlt : t1 < marks1.length := by
          rw [hP.1]
          exact txIndices_lt es t1 ht1
        rw [List.get?_set_eq_of_lt _ hlt] at hg
        have hr1 : r1 = r0 := (Option.some.inj (Option.some.inj hg)).symm
        subst hr1
        exact ⟨hkey.symm, htime⟩
      · rw [List.get?_set_ne _ _ (Ne.symm htt)] at hg
        exact hP.2 t1 r1 ht1 hg
  · refine ⟨by simp [initMarks], ?_⟩
    intro t1 r1 _ hg
    unfold initMarks at hg
    rcases replicate_get?_none es.length t1 with ⟨h1, _⟩ | ⟨h1, _⟩ <;> rw [h1] at hg <;> cases hg

/-- Witness for C7_strict_time at the send5 / recv6 pair. -/
theorem C7_witness :
    pair_key (([send5, recv6] : List Entry).getD 0 default) =
      pair_key (([send5, recv6] : List Entry).getD 1 default) ∧
    timeOf (([send5, recv6] : List Entry).getD 0 default) <
      timeOf (([send5, recv6] : List Entry).getD 1 default) :=
  C7_strict_time.1 [send5, recv6] 0 1 (by decide) (by decide)

/-! ## C9: pairing is total -/

/-- Claim C9 (confirmed): find_pairs never raises a lookup error on any
input — the rx_map dictionary is keyed by the pair key of every entry, so
the key of each send is present and a send with no matching receive just
gets an empty candidate list and stays unpaired. -/
theorem C9_no_key_error (es : List Entry) (marks : List (Option Nat)) :
    ∃ m, find_pairsE es marks = Except.ok m :=
  find_pairsE_total es marks

/-! ## C10: the evaluation result stays inside the universe -/

lemma apply_tok_subset (idset : Finset Nat) (st : Finset Nat × Finset Nat)
    (t : FilterTok) (h1 : st.1 ⊆ idset) (h2 : st.2 ⊆ idset) :
    (apply_tok idset st t).1 ⊆ idset ∧ (apply_tok idset st t).2 ⊆ idset := by
  obtain ⟨pre, m⟩ := t
  cases pre with
  | minus =>
    exact ⟨Finset.Subset.trans Finset.sdiff_subset h1,
      Finset.union_subset h2 (Finset.filter_subset _ _)⟩
  | tilde => exact ⟨Finset.Subset.trans (Finset.filter_subset _ _) h1, h2⟩
  | plain => exact ⟨Finset.union_subset h1 (Finset.filter_subset _ _), h2⟩

lemma foldl_apply_tok_subset (idset : Finset Nat) :
    ∀ (ts : List FilterTok) (st : Finset Nat × Finset Nat),
      st.1 ⊆ idset → st.2 ⊆ idset →
      (List.foldl (apply_tok idset) st ts).1 ⊆ idset ∧
        (List.foldl (apply_tok idset) st ts).2 ⊆ idset := by
  intro ts
  induction ts with
  | nil => intro st h1 h2; exact ⟨h1, h2⟩
  | cons t ts ih =>
    intro st h1 h2
    rw [List.foldl_cons]
    obtain ⟨g1, g2⟩ := apply_tok_subset idset st t h1 h2
    exact ih _ g1 g2

/-- Claim C10 (confirmed): for every tokenised filter expression —
whatever the matchers compiled from the name map — and every universe of
observed ids, both components of the filter_ids result are subsets of the
universe: an id never observed in the trace is neither selected nor
recorded as explicitly excluded. -/
theorem C10_subset (toks : List FilterTok) (idset : Finset Nat) :
    (filter_ids toks idset).1 ⊆ idset ∧ (filter_ids toks idset).2 ⊆ idset := by
  cases toks with
  | nil => exact ⟨Finset.Subset.refl idset, Finset.empty_subset idset⟩
  | cons t ts =>
    unfold filter_ids
    apply foldl_apply_tok_subset
    · dsimp only
      split
      · exact Finset.Subset.refl idset
      · exact Finset.empty_subset idset
    · exact Finset.empty_subset idset

end ShipTool
